import Mathlib

/-!
# Verification of the Clarity todo application

Shallow embedding of the Clarity task API server (`server/src/index.js`) and
the client view logic (`client/app.js`), together with proofs about the
recurring-task lifecycle, series deletion, validation, and the derived task
view.

Calendar dates are modelled as year/month/day triples of naturals; the
JavaScript `Date` normalization performed by `setDate`/`setMonth`/`setFullYear`
(with the server in UTC, so the local calendar agrees with the ISO string
rendered by `toISOString`) is modelled by `jsDateNorm`.
-/

set_option maxRecDepth 4096

namespace Clarity

/-- A calendar date: year, month (1–12 in canonical form), day (1-based). -/
structure ADate where
  year : Nat
  month : Nat
  day : Nat
deriving DecidableEq, Repr

/-- Gregorian leap-year test, as implemented by the JavaScript `Date` calendar. -/
def isLeap (y : Nat) : Bool :=
  (y % 4 == 0 && y % 100 != 0) || y % 400 == 0

/-- Number of days of month `m` of year `y` in the Gregorian calendar
(the calendar used by JavaScript `Date`).  The out-of-range default is
irrelevant: all uses keep `1 ≤ m ≤ 12`. -/
def daysInMonth (y m : Nat) : Nat :=
  if m = 2 then (if isLeap y then 29 else 28)
  else if m = 4 ∨ m = 6 ∨ m = 9 ∨ m = 11 then 30
  else 31

/-- Day-of-month overflow normalization: while the day exceeds the month
length, subtract the month length and advance the month (rolling the year at
December).  This is the day component of ECMAScript `MakeDay`.  The fuel is
always instantiated with the day value, which strictly bounds the number of
iterations (each step removes at least 28 days). -/
def normDays : Nat → Nat → Nat → Nat → ADate
  | 0, y, m, d => ⟨y, m, d⟩
  | fuel + 1, y, m, d =>
    if d > daysInMonth y m then
      if 12 ≤ m then normDays fuel (y + 1) 1 (d - daysInMonth y m)
      else normDays fuel y (m + 1) (d - daysInMonth y m)
    else ⟨y, m, d⟩

/-- JavaScript `Date` field normalization for a (year, month, day) triple as
produced by `setDate`/`setMonth`/`setFullYear` at the call sites in
`calculateNextDueDate`: month overflow first (only `m ≤ 13` arises), then
day-of-month overflow. -/
def jsDateNorm (y m d : Nat) : ADate :=
  let y1 := if 12 < m then y + 1 else y
  let m1 := if 12 < m then m - 12 else m
  normDays d y1 m1 d

/-- Embedding of `date.setDate(date.getDate() + n)` on a canonical date. -/
def jsAddDays (d : ADate) (n : Nat) : ADate :=
  jsDateNorm d.year d.month (d.day + n)

/-- The four recognized recurrence patterns (`validPatterns` in the server). -/
def validPatterns : List String := ["daily", "weekly", "monthly", "yearly"]

/-- Embedding of `calculateNextDueDate(currentDueDate, pattern)`
(`server/src/index.js` lines 220–239): basis is the current due date, or
today (`new Date()`) when absent; then one `setDate`/`setMonth`/`setFullYear`
step according to the pattern.  An unrecognized pattern falls through the
`switch` and returns the basis date unchanged. -/
def calculateNextDueDate (currentDueDate : Option ADate) (today : ADate)
    (pattern : String) : ADate :=
  let date := currentDueDate.getD today
  if pattern = "daily" then jsDateNorm date.year date.month (date.day + 1)
  else if pattern = "weekly" then jsDateNorm date.year date.month (date.day + 7)
  else if pattern = "monthly" then jsDateNorm date.year (date.month + 1) date.day
  else if pattern = "yearly" then jsDateNorm (date.year + 1) date.month date.day
  else date

/-- Standard calendar addition of one month, following the spec's words
("adding exactly one unit of the pattern … one calendar month … using
calendar-aware arithmetic, month addition must roll over day-of-month and
leap years correctly, matching standard calendar addition semantics"):
advance the month and clamp the day-of-month to the target month's length,
as standard date libraries do. -/
def specAddOneMonth (d : ADate) : ADate :=
  let y := if d.month = 12 then d.year + 1 else d.year
  let m := if d.month = 12 then 1 else d.month + 1
  ⟨y, m, min d.day (daysInMonth y m)⟩

/-- Strict chronological order on canonical dates (lexicographic on
year, month, day). -/
def dateLt (a b : ADate) : Prop :=
  a.year < b.year ∨ (a.year = b.year ∧
    (a.month < b.month ∨ (a.month = b.month ∧ a.day < b.day)))

/-- Chronological order (reflexive) on canonical dates. -/
def dateLe (a b : ADate) : Prop :=
  a.year < b.year ∨ (a.year = b.year ∧
    (a.month < b.month ∨ (a.month = b.month ∧ a.day ≤ b.day)))

instance (a b : ADate) : Decidable (dateLt a b) := by
  unfold dateLt; infer_instance

instance (a b : ADate) : Decidable (dateLe a b) := by
  unfold dateLe; infer_instance

/-- A canonical calendar date: month in 1–12, day within the month. -/
def validDate (d : ADate) : Prop :=
  1 ≤ d.month ∧ d.month ≤ 12 ∧ 1 ≤ d.day ∧ d.day ≤ daysInMonth d.year d.month

instance (d : ADate) : Decidable (validDate d) := by
  unfold validDate; infer_instance

/-! ## Task store model

A task record as persisted in the `tasks` table (ids are modelled as
naturals; the store is the list of rows).  `created_at`/`updated_at` are
irrelevant to the verified claims and omitted. -/

/-- One row of the `tasks` table. -/
structure Task where
  id : Nat
  user_id : Nat
  text : String
  completed : Bool
  due_date : Option ADate
  is_recurring : Bool
  recurrence_pattern : Option String
  parent_task_id : Option Nat
deriving DecidableEq, Repr

/-- JavaScript string truthiness for a nullable string: `null`, `undefined`
and `""` are falsy, every other string is truthy. -/
def truthyPat : Option String → Bool
  | none => false
  | some s => s ≠ ""

/-- JavaScript `String.prototype.trim()`: strip leading and trailing
whitespace (modelled with `Char.isWhitespace`, which agrees with the
ECMAScript WhiteSpace set on ASCII). -/
def jsTrim (s : String) : String :=
  ⟨((s.data.dropWhile Char.isWhitespace).reverse.dropWhile Char.isWhitespace).reverse⟩

/-! ## Server: create task (`POST /api/tasks`, lines 81–121)

The request body after JSON parsing.  `text = none` models an absent or
non-string `text` (both fail the `!text || typeof text !== 'string'` guard).
`is_recurring` is the JavaScript truthiness of the submitted value
(`Boolean(is_recurring)` and the bare `is_recurring &&` test agree on it).
`due_date || null` collapses an absent, null or empty date to `null`, which
`Option ADate` models directly. -/
structure CreateReq where
  text : Option String := none
  due_date : Option ADate := none
  is_recurring : Bool := false
  recurrence_pattern : Option String := none

/-- Embedding of the create handler.  On success the new row is appended to
the store and also returned (the `201` body); `.error` models a `400`
response sent before any store mutation. -/
def createTask (store : List Task) (uid : Nat) (req : CreateReq)
    (freshId : Nat) : Except String (List Task × Task) :=
  match req.text with
  | none => .error "Task text is required"
  | some s =>
    if (jsTrim s).length = 0 then .error "Task text is required"
    else if s.length > 200 then .error "Task text must be 200 characters or less"
    else if req.is_recurring = true ∧ truthyPat req.recurrence_pattern = true ∧
        req.recurrence_pattern.getD "" ∉ validPatterns then
      .error "Invalid recurrence pattern"
    else
      let t : Task :=
        { id := freshId, user_id := uid, text := jsTrim s, completed := false,
          due_date := req.due_date,
          is_recurring := req.is_recurring,
          recurrence_pattern :=
            if req.is_recurring then req.recurrence_pattern else none,
          parent_task_id := none }
      .ok (store ++ [t], t)

/-! ## Server: update task (`PUT /api/tasks/:id`, lines 124–217) -/

/-- The update request body.  An outer `none` is an absent (`undefined`)
field; for `due_date` and `recurrence_pattern` the inner `Option`
distinguishes an explicit `null` from a value.  `completed` and
`is_recurring` carry the truthiness of the submitted value. -/
structure UpdateReq where
  text : Option String := none
  completed : Option Bool := none
  due_date : Option (Option ADate) := none
  is_recurring : Option Bool := none
  recurrence_pattern : Option (Option String) := none

/-- The `updates` object accumulated by the handler before it is sent to the
store; a `none` field is one that was never assigned. -/
structure Updates where
  text : Option String := none
  completed : Option Bool := none
  due_date : Option (Option ADate) := none
  is_recurring : Option Bool := none
  recurrence_pattern : Option (Option String) := none
deriving DecidableEq

/-- The `completed` clause of the update handler (lines 142–144):
`updates.completed = Boolean(completed)`. -/
def updCompleted (req : UpdateReq) (u : Updates) : Updates :=
  match req.completed with
  | none => u
  | some b => { u with completed := some b }

/-- The `due_date` clause (lines 146–148): the submitted value (possibly
`null`) is copied verbatim. -/
def updDue (req : UpdateReq) (u : Updates) : Updates :=
  match req.due_date with
  | none => u
  | some dd => { u with due_date := some dd }

/-- The `is_recurring` clause (lines 150–155): coerce to boolean and, when
falsy, also force `recurrence_pattern` to `null`. -/
def updRecurring (req : UpdateReq) (u : Updates) : Updates :=
  match req.is_recurring with
  | none => u
  | some b =>
    if b then { u with is_recurring := some true }
    else { u with is_recurring := some false, recurrence_pattern := some none }

/-- The `recurrence_pattern` clause (lines 157–163): a truthy value outside
the four recognized patterns is a `400`; otherwise the submitted value
(including `null` or `""`) is copied, overwriting anything the
`is_recurring` clause wrote. -/
def updPattern (req : UpdateReq) (u : Updates) : Except String Updates :=
  match req.recurrence_pattern with
  | none => .ok u
  | some rp =>
    if truthyPat rp = true ∧ rp.getD "" ∉ validPatterns then
      .error "Invalid recurrence pattern"
    else .ok { u with recurrence_pattern := some rp }

/-- The clauses after the `text` clause, in source order, ending with the
`No valid fields to update` check (lines 165–167). -/
def afterText (req : UpdateReq) (u : Updates) : Except String Updates :=
  match updPattern req (updRecurring req (updDue req (updCompleted req u))) with
  | .error e => .error e
  | .ok u' =>
    if u' = ({} : Updates) then .error "No valid fields to update"
    else .ok u'

/-- Embedding of the validation phase of the update handler (lines 130–167):
build the `updates` object clause by clause, returning the first `400`
error. -/
def buildUpdates (req : UpdateReq) : Except String Updates :=
  match req.text with
  | none => afterText req {}
  | some s =>
    if (jsTrim s).length = 0 then .error "Task text cannot be empty"
    else if s.length > 200 then .error "Task text must be 200 characters or less"
    else afterText req { text := some (jsTrim s) }

/-- The store-side partial update: fields present in `updates` replace the
row's fields. -/
def applyUpdates (u : Updates) (t : Task) : Task :=
  { t with
    text := u.text.getD t.text,
    completed := u.completed.getD t.completed,
    due_date := u.due_date.getD t.due_date,
    is_recurring := u.is_recurring.getD t.is_recurring,
    recurrence_pattern := u.recurrence_pattern.getD t.recurrence_pattern }

/-- The lookup `select * where id = tid and user_id = uid` returning a single row. -/
def findTask (store : List Task) (tid uid : Nat) : Option Task :=
  store.find? (fun t => decide (t.id = tid ∧ t.user_id = uid))

/-- Embedding of the update handler.  The pre-update row is fetched only
when the request sets `completed = true` (`currentTask`); the update is then
applied, and if the pre-update row was a recurring task with a truthy
pattern, the successor row is inserted.  `.error` models a `400`/`500`
response; in both error cases the caller's store is unchanged. -/
def putTask (store : List Task) (uid tid : Nat) (req : UpdateReq)
    (today : ADate) (freshId : Nat) : Except String (List Task) :=
  match buildUpdates req with
  | .error e => .error e
  | .ok upd =>
    let currentTask : Option Task :=
      if upd.completed = some true then findTask store tid uid else none
    match findTask store tid uid with
    | none => .error "Failed to update task"
    | some _ =>
      let store1 := store.map fun t =>
        if t.id = tid ∧ t.user_id = uid then applyUpdates upd t else t
      match currentTask with
      | some ct =>
        if upd.completed = some true ∧ ct.is_recurring = true ∧
            truthyPat ct.recurrence_pattern = true then
          .ok (store1 ++ [{
            id := freshId, user_id := uid, text := ct.text, completed := false,
            due_date := some (calculateNextDueDate ct.due_date today
              (ct.recurrence_pattern.getD "")),
            is_recurring := true,
            recurrence_pattern := ct.recurrence_pattern,
            parent_task_id := some tid }])
        else .ok store1
      | none => .ok store1

/-! ## Server: series deletion (`DELETE /api/tasks/:id?deleteSeries=true`,
lines 242–288) -/

/-- Embedding of the `deleteSeries === 'true'` branch: look up the target's
`parent_task_id` (ownership-scoped); if the target exists, the series root
is that parent or, when null, the target's own id; delete the root's direct
children owned by the caller, then the root itself if owned by the caller. -/
def deleteTaskSeries (store : List Task) (uid tid : Nat) : List Task :=
  match findTask store tid uid with
  | none => store
  | some task =>
    let parentId := task.parent_task_id.getD tid
    let store1 := store.filter fun t =>
      decide (¬ (t.parent_task_id = some parentId ∧ t.user_id = uid))
    store1.filter fun t => decide (¬ (t.id = parentId ∧ t.user_id = uid))

/-! ## Client: due-status annotation (`client/app.js` lines 34–45)

`getDueStatus` compares midnight-normalized `Date` values, which on
canonical calendar dates is exactly chronological (lexicographic)
comparison; `threeDaysFromNow` is `today.setDate(today.getDate() + 3)`,
i.e. `jsAddDays today 3`. -/

/-- Embedding of `getDueStatus(dateString, completed)`: `""` for a missing
due date or a completed task, `"overdue"` strictly before today,
`"due-soon"` up to three days ahead (inclusive), `""` otherwise. -/
def getDueStatus (dateString : Option ADate) (completed : Bool)
    (today : ADate) : String :=
  match dateString with
  | none => ""
  | some date =>
    if completed then ""
    else if dateLt date today then "overdue"
    else if dateLe date (jsAddDays today 3) then "due-soon"
    else ""

/-- The four abstract due statuses of the spec's task view model. -/
inductive DueStatus
  | noStatus
  | overdue
  | dueSoon
  | ok
deriving DecidableEq, Repr

/-- The spec's derived `dueStatus`, stated from its words: `none` if no due
date or already completed; `overdue` if the due date is strictly before the
current day; `due-soon` if it falls within the next 3 calendar days
inclusive of today; `ok` otherwise. -/
def dueStatusSpec (due : Option ADate) (completed : Bool)
    (today : ADate) : DueStatus :=
  match due with
  | none => .noStatus
  | some d =>
    if completed then .noStatus
    else if dateLt d today then .overdue
    else if dateLe d (jsAddDays today 3) then .dueSoon
    else .ok

/-- How the client renders each abstract status as a CSS class: `none` and
`ok` are both rendered as the empty string. -/
def renderStatus : DueStatus → String
  | .noStatus => ""
  | .overdue => "overdue"
  | .dueSoon => "due-soon"
  | .ok => ""

/-! ## Client: filtered and sorted view (`client/app.js` lines 632–657) -/

/-- The filter selected in the client UI. -/
inductive TaskFilter
  | all
  | active
  | completed
deriving DecidableEq, Repr

/-- The sort order selected in the client UI. -/
inductive TaskSort
  | created
  | due
deriving DecidableEq, Repr

/-- The total preorder induced by the due-date comparator
`(a, b) => { if (!a.due_date && !b.due_date) return 0; if (!a.due_date)
return 1; if (!b.due_date) return -1; return new Date(a.due_date) - new
Date(b.due_date); }`: `dueLe a b` holds exactly when the comparator keeps
`a` no later than `b` (returns `≤ 0`). -/
def dueLe : Option ADate → Option ADate → Prop
  | none, none => True
  | none, some _ => False
  | some _, none => True
  | some a, some b => dateLe a b

instance (a b : Option ADate) : Decidable (dueLe a b) := by
  cases a <;> cases b <;> unfold dueLe <;> infer_instance

/-- Insert a task into an already-sorted list, before the first element it
compares no later than.  This is the characteristic step of a stable sort
with the due-date comparator; ECMAScript `Array.prototype.sort` is
guaranteed stable, so any engine's sort agrees with this one on the induced
ordering. -/
def insertByDue (t : Task) : List Task → List Task
  | [] => [t]
  | u :: us =>
    if dueLe t.due_date u.due_date then t :: u :: us
    else u :: insertByDue t us

/-- Stable sort by the due-date comparator. -/
def sortByDue : List Task → List Task
  | [] => []
  | t :: ts => insertByDue t (sortByDue ts)

/-- Embedding of `TodoApp.getFilteredTodos()`: filter by completion status,
then sort by due date when the `due` sort is selected (the `created` sort
keeps the store order). -/
def getFilteredTodos (todos : List Task) (filter : TaskFilter)
    (sort : TaskSort) : List Task :=
  let filtered :=
    match filter with
    | .active => todos.filter fun t => !t.completed
    | .completed => todos.filter fun t => t.completed
    | .all => todos
  match sort with
  | .due => sortByDue filtered
  | .created => filtered

/-! ## Concrete fixtures used in witnesses and counterexamples -/

/-- A pending recurring daily task. -/
def wRecurring : Task :=
  { id := 1, user_id := 1, text := "water plants", completed := false,
    due_date := some ⟨2024, 3, 1⟩, is_recurring := true,
    recurrence_pattern := some "daily", parent_task_id := none }

/-- The same task already marked completed. -/
def wRecurringDone : Task :=
  { wRecurring with completed := true }

/-- A plain non-recurring task. -/
def wPlain : Task :=
  { id := 1, user_id := 1, text := "buy milk", completed := false,
    due_date := none, is_recurring := false, recurrence_pattern := none,
    parent_task_id := none }

/-- Series fixture: the root of a recurring series. -/
def seriesRoot : Task :=
  { wPlain with
    id := 10,
    is_recurring := true,
    recurrence_pattern := some "weekly" }

/-- Series fixture: a direct child of the root. -/
def seriesChild : Task :=
  { wPlain with id := 11, parent_task_id := some 10 }

/-- Series fixture: another direct child of the root. -/
def seriesChild2 : Task :=
  { wPlain with id := 12, parent_task_id := some 10 }

/-- Series fixture: a row of a different user that also points at the root. -/
def seriesForeign : Task :=
  { wPlain with id := 13, user_id := 2, parent_task_id := some 10 }

/-- Series fixture: an unrelated task of the same user. -/
def seriesUnrelated : Task :=
  { wPlain with id := 14 }

/-- Series fixture: the whole store. -/
def seriesStore : List Task :=
  [seriesRoot, seriesChild, seriesChild2, seriesForeign, seriesUnrelated]

/-- A string of 201 raw characters whose trimmed length is 195. -/
def longText : String :=
  String.mk (List.replicate 195 'a' ++ List.replicate 6 ' ')

/-- The row created by `createTask [] 1 { text := some "buy milk" } 3`. -/
def wMilkCreated : Task :=
  { id := 3, user_id := 1, text := "buy milk", completed := false,
    due_date := none, is_recurring := false, recurrence_pattern := none,
    parent_task_id := none }

/-- Fixture create request: non-recurring but carrying a bogus pattern. -/
def bogusCreateReq : CreateReq :=
  { text := some "call mom", is_recurring := false,
    recurrence_pattern := some "bogus" }

/-- Fixture create request: recurring with a bogus pattern. -/
def bogusRecReq : CreateReq :=
  { text := some "call mom", is_recurring := true,
    recurrence_pattern := some "bogus" }

/-- Fixture request: mark complete, nothing else. -/
def wCompleteReq : UpdateReq :=
  { completed := some true }

/-- The updates object the handler builds from `wCompleteReq`. -/
def wCompleteUpd : Updates :=
  { completed := some true }

/-- Fixture request: complete the task and simultaneously rename it and
change its pattern. -/
def wEditReq : UpdateReq :=
  { text := some "new name", completed := some true,
    recurrence_pattern := some (some "weekly") }

/-- The updates object the handler builds from `wEditReq`. -/
def wEditUpd : Updates :=
  { text := some "new name", completed := some true,
    recurrence_pattern := some (some "weekly") }

/-! ## Calendar arithmetic lemmas -/

theorem daysInMonth_le (y m : Nat) : daysInMonth y m ≤ 31 := by
  unfold daysInMonth; split_ifs <;> omega

theorem daysInMonth_ge (y m : Nat) : 28 ≤ daysInMonth y m := by
  unfold daysInMonth; split_ifs <;> omega

theorem normDays_of_le (fuel y m d : Nat) (h : d ≤ daysInMonth y m) :
    normDays fuel y m d = ⟨y, m, d⟩ := by
  cases fuel with
  | zero => rfl
  | succ n => simp [normDays, Nat.not_lt.mpr h]

theorem normDays_step (fuel y m d : Nat) (h : daysInMonth y m < d) (hm : m < 12) :
    normDays (fuel + 1) y m d = normDays fuel y (m + 1) (d - daysInMonth y m) := by
  simp [normDays, h, Nat.not_le.mpr hm]

theorem normDays_step_dec (fuel y d : Nat) (h : daysInMonth y 12 < d) :
    normDays (fuel + 1) y 12 d = normDays fuel (y + 1) 1 (d - daysInMonth y 12) := by
  simp [normDays, h]

theorem daysInMonth_two (y : Nat) :
    daysInMonth y 2 = if isLeap y then 29 else 28 := by
  unfold daysInMonth; norm_num

theorem daysInMonth_congr (y y' m : Nat) (h : m ≠ 2) :
    daysInMonth y m = daysInMonth y' m := by
  unfold daysInMonth; simp [h]

/-- Adding `n ∈ {1, 7}` days with JavaScript `Date` semantics strictly
advances a canonical date. -/
theorem jsAddDays_lt (d : ADate) (n : Nat) (hv : validDate d)
    (hn : 1 ≤ n) (hn7 : n ≤ 7) : dateLt d (jsAddDays d n) := by
  obtain ⟨y, m, dd⟩ := d
  simp only [validDate] at hv
  obtain ⟨h1, h2, h3, h4⟩ := hv
  unfold jsAddDays jsDateNorm
  simp only
  rw [if_neg (by omega : ¬ 12 < m), if_neg (by omega : ¬ 12 < m)]
  by_cases hd : dd + n ≤ daysInMonth y m
  · rw [normDays_of_le _ _ _ _ hd]
    simp only [dateLt, eq_self_iff_true, true_and]; omega
  · have hgt : daysInMonth y m < dd + n := by omega
    obtain ⟨k, hk⟩ : ∃ k, dd + n = k + 1 := ⟨dd + n - 1, by omega⟩
    have hnew : 1 ≤ dd + n - daysInMonth y m ∧ dd + n - daysInMonth y m ≤ 7 := by
      omega
    by_cases hm12 : m < 12
    · rw [hk] at hgt ⊢
      rw [normDays_step _ _ _ _ hgt hm12]
      rw [normDays_of_le _ _ _ _ (by have := daysInMonth_ge y (m + 1); omega)]
      simp only [dateLt, eq_self_iff_true, true_and]; omega
    · have hm : m = 12 := by omega
      subst hm
      rw [hk] at hgt ⊢
      rw [normDays_step_dec _ _ _ hgt]
      rw [normDays_of_le _ _ _ _ (by have := daysInMonth_ge (y + 1) 1; omega)]
      simp only [dateLt, eq_self_iff_true, true_and]; omega

/-- The `monthly` step of `calculateNextDueDate` strictly advances a
canonical date. -/
theorem jsAddMonth_lt (d : ADate) (hv : validDate d) :
    dateLt d (jsDateNorm d.year (d.month + 1) d.day) := by
  obtain ⟨y, m, dd⟩ := d
  simp only [validDate] at hv
  obtain ⟨h1, h2, h3, h4⟩ := hv
  unfold jsDateNorm
  simp only
  by_cases hm12 : m < 12
  · rw [if_neg (by omega : ¬ 12 < m + 1), if_neg (by omega : ¬ 12 < m + 1)]
    by_cases hd : dd ≤ daysInMonth y (m + 1)
    · rw [normDays_of_le _ _ _ _ hd]
      simp only [dateLt, eq_self_iff_true, true_and]; omega
    · have hgt : daysInMonth y (m + 1) < dd := by omega
      obtain ⟨k, hk⟩ : ∃ k, dd = k + 1 := ⟨dd - 1, by omega⟩
      have hm11 : m + 1 < 12 := by
        by_contra hc
        have hm' : m + 1 = 12 := by omega
        rw [hm'] at hgt
        have : daysInMonth y 12 = 31 := by unfold daysInMonth; norm_num
        have := daysInMonth_le y m
        omega
      rw [hk] at hgt ⊢
      rw [normDays_step _ _ _ _ hgt hm11]
      rw [normDays_of_le _ _ _ _
        (by have := daysInMonth_ge y (m + 1 + 1)
            have := daysInMonth_ge y (m + 1)
            have := daysInMonth_le y m
            omega)]
      simp only [dateLt, eq_self_iff_true, true_and]; omega
  · have hm : m = 12 := by omega
    subst hm
    rw [if_pos (by omega : 12 < 12 + 1), if_pos (by omega : 12 < 12 + 1)]
    have h12 : (12 : Nat) + 1 - 12 = 1 := by omega
    rw [h12]
    have hdim : daysInMonth y 12 = 31 := by unfold daysInMonth; norm_num
    rw [normDays_of_le _ _ _ _
      (by have : daysInMonth (y + 1) 1 = 31 := by unfold daysInMonth; norm_num
          omega)]
    simp only [dateLt, eq_self_iff_true, true_and]; omega

/-- The `yearly` step of `calculateNextDueDate` strictly advances a
canonical date. -/
theorem jsAddYear_lt (d : ADate) (hv : validDate d) :
    dateLt d (jsDateNorm (d.year + 1) d.month d.day) := by
  obtain ⟨y, m, dd⟩ := d
  simp only [validDate] at hv
  obtain ⟨h1, h2, h3, h4⟩ := hv
  unfold jsDateNorm
  simp only
  rw [if_neg (by omega : ¬ 12 < m), if_neg (by omega : ¬ 12 < m)]
  by_cases hd : dd ≤ daysInMonth (y + 1) m
  · rw [normDays_of_le _ _ _ _ hd]
    simp only [dateLt, eq_self_iff_true, true_and]; omega
  · have hgt : daysInMonth (y + 1) m < dd := by omega
    have hm2 : m = 2 := by
      by_contra hc
      rw [daysInMonth_congr (y + 1) y m hc] at hgt
      omega
    subst hm2
    obtain ⟨k, hk⟩ : ∃ k, dd = k + 1 := ⟨dd - 1, by omega⟩
    rw [hk] at hgt ⊢
    rw [normDays_step _ _ _ _ hgt (by omega)]
    rw [normDays_of_le _ _ _ _
      (by have := daysInMonth_ge (y + 1) (2 + 1)
          have := daysInMonth_ge (y + 1) 2
          have h29 : daysInMonth y 2 ≤ 29 := by
            rw [daysInMonth_two]; split <;> omega
          omega)]
    simp only [dateLt, eq_self_iff_true, true_and]; omega

/-! ## Properties of the due-date comparator and the stable sort -/

theorem dueLe_refl (a : Option ADate) : dueLe a a := by
  cases a with
  | none => trivial
  | some d => show dateLe d d; unfold dateLe; omega

theorem dueLe_total (a b : Option ADate) : dueLe a b ∨ dueLe b a := by
  cases a with
  | none =>
    cases b with
    | none => exact Or.inl trivial
    | some e => exact Or.inr trivial
  | some d =>
    cases b with
    | none => exact Or.inl trivial
    | some e => show dateLe d e ∨ dateLe e d; unfold dateLe; omega

theorem dueLe_trans {a b c : Option ADate} (h1 : dueLe a b) (h2 : dueLe b c) :
    dueLe a c := by
  cases a with
  | none =>
    cases b with
    | none => exact h2
    | some e => exact h1.elim
  | some d =>
    cases c with
    | none => trivial
    | some f =>
      cases b with
      | none => exact h2.elim
      | some e =>
        have g1 : dateLe d e := h1
        have g2 : dateLe e f := h2
        show dateLe d f
        unfold dateLe at g1 g2 ⊢
        omega

theorem perm_insertByDue (t : Task) (l : List Task) :
    (insertByDue t l).Perm (t :: l) := by
  induction l with
  | nil => exact List.Perm.refl _
  | cons u us ih =>
    unfold insertByDue
    split
    · exact List.Perm.refl _
    · exact ((ih.cons u).trans (List.Perm.swap t u us))

theorem perm_sortByDue (l : List Task) : (sortByDue l).Perm l := by
  induction l with
  | nil => exact List.Perm.refl _
  | cons t ts ih =>
    exact (perm_insertByDue t (sortByDue ts)).trans (ih.cons t)

theorem pairwise_insertByDue (t : Task) (l : List Task)
    (h : l.Pairwise fun a b => dueLe a.due_date b.due_date) :
    (insertByDue t l).Pairwise fun a b => dueLe a.due_date b.due_date := by
  induction l with
  | nil => simp [insertByDue]
  | cons u us ih =>
    rw [List.pairwise_cons] at h
    unfold insertByDue
    split
    · rename_i hle
      rw [List.pairwise_cons]
      refine ⟨?_, List.pairwise_cons.mpr h⟩
      intro x hx
      rw [List.mem_cons] at hx
      rcases hx with rfl | hx
      · exact hle
      · exact dueLe_trans hle (h.1 x hx)
    · rename_i hnle
      rw [List.pairwise_cons]
      refine ⟨?_, ih h.2⟩
      intro x hx
      have hmem := (perm_insertByDue t us).mem_iff.mp hx
      rw [List.mem_cons] at hmem
      rcases hmem with rfl | hx'
      · rcases dueLe_total x.due_date u.due_date with hc | hc
        · exact absurd hc hnle
        · exact hc
      · exact h.1 x hx'

theorem pairwise_sortByDue (l : List Task) :
    (sortByDue l).Pairwise fun a b => dueLe a.due_date b.due_date := by
  induction l with
  | nil => simp [sortByDue]
  | cons t ts ih => exact pairwise_insertByDue t (sortByDue ts) ih

theorem filter_insertByDue (t : Task) (l : List Task) (k : Option ADate) :
    (insertByDue t l).filter (fun u => decide (u.due_date = k))
      = if t.due_date = k
        then t :: l.filter (fun u => decide (u.due_date = k))
        else l.filter (fun u => decide (u.due_date = k)) := by
  induction l with
  | nil =>
    by_cases hk : t.due_date = k <;>
      simp [insertByDue, List.filter_cons, hk]
  | cons u us ih =>
    unfold insertByDue
    split
    · rename_i hle
      by_cases hk : t.due_date = k <;> simp [List.filter_cons, hk]
    · rename_i hnle
      rw [List.filter_cons, List.filter_cons]
      by_cases huk : u.due_date = k
      · have htk : ¬ t.due_date = k := by
          intro htk
          exact hnle (htk ▸ huk ▸ dueLe_refl k)
        simp [huk, htk, ih]
      · simp [huk, ih]

/-- Stability of the sort: for every due-date key, the subsequence of tasks
with that key is unchanged. -/
theorem filter_sortByDue (l : List Task) (k : Option ADate) :
    (sortByDue l).filter (fun u => decide (u.due_date = k))
      = l.filter (fun u => decide (u.due_date = k)) := by
  induction l with
  | nil => rfl
  | cons t ts ih =>
    unfold sortByDue
    rw [filter_insertByDue, List.filter_cons]
    by_cases hk : t.due_date = k <;> simp [hk, ih]

/-! ## Evaluation of `calculateNextDueDate` at the four patterns -/

theorem calc_daily (d today : ADate) :
    calculateNextDueDate (some d) today "daily" = jsAddDays d 1 := rfl

theorem calc_weekly (d today : ADate) :
    calculateNextDueDate (some d) today "weekly" = jsAddDays d 7 := rfl

theorem calc_monthly (d today : ADate) :
    calculateNextDueDate (some d) today "monthly"
      = jsDateNorm d.year (d.month + 1) d.day := rfl

theorem calc_yearly (d today : ADate) :
    calculateNextDueDate (some d) today "yearly"
      = jsDateNorm (d.year + 1) d.month d.day := rfl

/-! ## Claims -/

/-- C3, counterexample: the code's month addition carries an overflowing
day-of-month into the following month instead of clamping, so the next
monthly occurrence of a task due 2024-01-31 is 2024-03-02, not the
2024-02-29 produced by standard calendar addition (`specAddOneMonth`). -/
theorem C3_counterexample :
    calculateNextDueDate (some ⟨2024, 1, 31⟩) ⟨2024, 1, 1⟩ "monthly" = ⟨2024, 3, 2⟩
    ∧ specAddOneMonth ⟨2024, 1, 31⟩ = ⟨2024, 2, 29⟩
    ∧ calculateNextDueDate (some ⟨2024, 1, 31⟩) ⟨2024, 1, 1⟩ "monthly"
        ≠ specAddOneMonth ⟨2024, 1, 31⟩ := by
  refine ⟨by decide, by decide, by decide⟩

/-- C3 (amended): for every canonical basis date and valid pattern the
computed next occurrence is strictly after the basis; daily/weekly advance
by exactly 1/7 calendar days and monthly/yearly increment the month/year
with day-of-month overflow carried into the following month (not clamped);
an absent due date makes the current date the basis; the spec's daily
leap-year example holds. -/
theorem C3_next_occurrence :
    (∀ (d today : ADate) (p : String), validDate d → p ∈ validPatterns →
      dateLt d (calculateNextDueDate (some d) today p))
    ∧ (∀ (today : ADate) (p : String),
      calculateNextDueDate none today p = calculateNextDueDate (some today) today p)
    ∧ calculateNextDueDate (some ⟨2024, 2, 28⟩) ⟨2024, 1, 1⟩ "daily" = ⟨2024, 2, 29⟩
    ∧ calculateNextDueDate (some ⟨2024, 2, 29⟩) ⟨2024, 1, 1⟩ "daily" = ⟨2024, 3, 1⟩ := by
  refine ⟨?_, ?_, by decide, by decide⟩
  · intro d today p hv hp
    simp only [validPatterns, List.mem_cons, List.not_mem_nil, or_false] at hp
    rcases hp with rfl | rfl | rfl | rfl
    · rw [calc_daily]; exact jsAddDays_lt d 1 hv (by omega) (by omega)
    · rw [calc_weekly]; exact jsAddDays_lt d 7 hv (by omega) (by omega)
    · rw [calc_monthly]; exact jsAddMonth_lt d hv
    · rw [calc_yearly]; exact jsAddYear_lt d hv
  · intro today p
    rfl

/-- C3, witness for the amended theorem at the spec's own example. -/
theorem C3_witness :
    validDate ⟨2024, 2, 28⟩ ∧ "daily" ∈ validPatterns ∧
    dateLt ⟨2024, 2, 28⟩
      (calculateNextDueDate (some ⟨2024, 2, 28⟩) ⟨2024, 1, 1⟩ "daily") :=
  ⟨by decide, by decide,
    C3_next_occurrence.1 ⟨2024, 2, 28⟩ ⟨2024, 1, 1⟩ "daily" (by decide) (by decide)⟩

/-- C7: the client's `getDueStatus` is the rendering of the spec's
four-valued `dueStatus` (the client renders both `none` and `ok` as the
empty CSS class): `none` if no due date or completed, `overdue` strictly
before today, `due-soon` within the window from today to today+3 days
inclusive, `ok` otherwise; with the claim's yesterday / today+2 / completed
examples. -/
theorem C7_due_status :
    (∀ (due : Option ADate) (completed : Bool) (today : ADate),
      getDueStatus due completed today
        = renderStatus (dueStatusSpec due completed today))
    ∧ (∀ (due : Option ADate) (today : ADate),
      dueStatusSpec due true today = DueStatus.noStatus)
    ∧ (∀ today : ADate, dueStatusSpec none false today = DueStatus.noStatus)
    ∧ (∀ (d today : ADate),
      dueStatusSpec (some d) false today
        = if dateLt d today then .overdue
          else if dateLe d (jsAddDays today 3) then .dueSoon
          else .ok)
    ∧ dueStatusSpec (some ⟨2024, 3, 14⟩) false ⟨2024, 3, 15⟩ = .overdue
    ∧ dueStatusSpec (some ⟨2024, 3, 17⟩) false ⟨2024, 3, 15⟩ = .dueSoon
    ∧ dueStatusSpec (some ⟨2024, 3, 18⟩) false ⟨2024, 3, 15⟩ = .dueSoon
    ∧ dueStatusSpec (some ⟨2024, 3, 19⟩) false ⟨2024, 3, 15⟩ = .ok
    ∧ getDueStatus (some ⟨2024, 1, 1⟩) true ⟨2024, 3, 15⟩ = "" := by
  refine ⟨?_, ?_, fun _ => rfl, fun _ _ => rfl,
    by decide, by decide, by decide, by decide, by decide⟩
  · intro due completed today
    cases due with
    | none => rfl
    | some d =>
      unfold getDueStatus dueStatusSpec
      by_cases hc : completed
      · simp [hc, renderStatus]
      · simp only [hc, if_false, Bool.false_eq_true]
        by_cases h1 : dateLt d today
        · simp [h1, renderStatus]
        · by_cases h2 : dateLe d (jsAddDays today 3) <;>
            simp [h1, h2, renderStatus]
  · intro due today
    cases due with
    | none => rfl
    | some d => rfl

/-- C8: `getFilteredTodos` with filter `active`/`completed`/`all` returns
exactly the incomplete / completed / all tasks in input order, and with the
`due` sort the result is a permutation of the filtered list that is sorted
by the due-date comparator (which places every task lacking a due date
after every task having one) and is stable: for each due-date key the
subsequence of tasks with that key is preserved. -/
theorem C8_derive_view :
    (∀ todos : List Task,
      getFilteredTodos todos .active .created = todos.filter fun t => !t.completed)
    ∧ (∀ todos : List Task,
      getFilteredTodos todos .completed .created = todos.filter fun t => t.completed)
    ∧ (∀ todos : List Task, getFilteredTodos todos .all .created = todos)
    ∧ (∀ (todos : List Task) (f : TaskFilter),
      (getFilteredTodos todos f .due).Perm (getFilteredTodos todos f .created))
    ∧ (∀ (todos : List Task) (f : TaskFilter),
      (getFilteredTodos todos f .due).Pairwise fun a b => dueLe a.due_date b.due_date)
    ∧ (∀ (todos : List Task) (f : TaskFilter) (k : Option ADate),
      (getFilteredTodos todos f .due).filter (fun u => decide (u.due_date = k))
        = (getFilteredTodos todos f .created).filter fun u => decide (u.due_date = k)) := by
  refine ⟨fun _ => rfl, fun _ => rfl, fun _ => rfl, ?_, ?_, ?_⟩
  · intro todos f
    cases f <;> exact perm_sortByDue _
  · intro todos f
    cases f <;> exact pairwise_sortByDue _
  · intro todos f k
    cases f <;> exact filter_sortByDue _ k

/-- The two ownership-scoped deletes of the series branch compose to a
single filter: a row survives unless it belongs to the caller and is either
a direct child of the root or the root itself. -/
theorem filter_filter_series (l : List Task) (uid pid : Nat) :
    (l.filter fun t =>
        decide (¬ (t.parent_task_id = some pid ∧ t.user_id = uid))).filter
      (fun t => decide (¬ (t.id = pid ∧ t.user_id = uid)))
      = l.filter fun t =>
          decide (¬ (t.user_id = uid ∧
            (t.parent_task_id = some pid ∨ t.id = pid))) := by
  rw [List.filter_filter]
  refine List.filter_congr ?_
  intro x _
  by_cases hu : x.user_id = uid <;>
    by_cases hp : x.parent_task_id = some pid <;>
      by_cases hi : x.id = pid <;>
        simp [hu, hp, hi]

/-- C5: deleting with scope = series on an existing task removes exactly the
caller's rows whose `parent_task_id` is the resolved root (the target's
parent if set, else the target itself) together with the root row, leaving
every other row — in particular other users' rows and unrelated rows — in
place and in order. -/
theorem C5_series_delete (store : List Task) (uid tid : Nat) (t : Task)
    (hfind : findTask store tid uid = some t) :
    deleteTaskSeries store uid tid
      = store.filter fun s =>
          decide (¬ (s.user_id = uid ∧
            (s.parent_task_id = some (t.parent_task_id.getD tid)
              ∨ s.id = t.parent_task_id.getD tid))) := by
  unfold deleteTaskSeries
  rw [hfind]
  exact filter_filter_series store uid (t.parent_task_id.getD tid)

/-- C5, witness: deleting the series through child `11` removes the root
`10` and its children `11`, `12` owned by user `1`, keeping the foreign
user's row `13` and the unrelated row `14`. -/
theorem C5_witness :
    findTask seriesStore 11 1 = some seriesChild ∧
    deleteTaskSeries seriesStore 1 11
      = (seriesStore.filter fun s =>
          decide (¬ (s.user_id = 1 ∧
            (s.parent_task_id = some (seriesChild.parent_task_id.getD 11)
              ∨ s.id = seriesChild.parent_task_id.getD 11)))) ∧
    deleteTaskSeries seriesStore 1 11 = [seriesForeign, seriesUnrelated] :=
  ⟨rfl, C5_series_delete seriesStore 1 11 seriesChild rfl, by decide⟩

/-! ## Evaluation of the update handler -/

/-- The updated store row set used by the handler. -/
theorem putTask_insert (store : List Task) (uid tid freshId : Nat)
    (req : UpdateReq) (today : ADate) (upd : Updates) (t : Task)
    (hupd : buildUpdates req = Except.ok upd)
    (hc : upd.completed = some true)
    (hfind : findTask store tid uid = some t)
    (hrec : t.is_recurring = true)
    (hpat : truthyPat t.recurrence_pattern = true) :
    putTask store uid tid req today freshId
      = Except.ok ((store.map fun s =>
          if s.id = tid ∧ s.user_id = uid then applyUpdates upd s else s)
        ++ [{ id := freshId, user_id := uid, text := t.text, completed := false,
              due_date := some (calculateNextDueDate t.due_date today
                (t.recurrence_pattern.getD "")),
              is_recurring := true,
              recurrence_pattern := t.recurrence_pattern,
              parent_task_id := some tid }]) := by
  unfold putTask
  rw [hupd]
  simp only [hc, hfind, hrec, hpat, eq_self_iff_true, true_and, and_self, if_true]

/-- When the request does not set `completed = true`, the handler only
applies the field updates: no row is inserted. -/
theorem putTask_not_completing (store : List Task) (uid tid freshId : Nat)
    (req : UpdateReq) (today : ADate) (upd : Updates) (t : Task)
    (hupd : buildUpdates req = Except.ok upd)
    (hc : ¬ upd.completed = some true)
    (hfind : findTask store tid uid = some t) :
    putTask store uid tid req today freshId
      = Except.ok (store.map fun s =>
          if s.id = tid ∧ s.user_id = uid then applyUpdates upd s else s) := by
  unfold putTask
  rw [hupd]
  simp only [hfind, if_neg hc]

/-- When the request sets `completed = true` but the pre-update row is not a
recurring task with a truthy pattern, no row is inserted. -/
theorem putTask_no_trigger (store : List Task) (uid tid freshId : Nat)
    (req : UpdateReq) (today : ADate) (upd : Updates) (t : Task)
    (hupd : buildUpdates req = Except.ok upd)
    (hc : upd.completed = some true)
    (hfind : findTask store tid uid = some t)
    (hnt : ¬ (t.is_recurring = true ∧ truthyPat t.recurrence_pattern = true)) :
    putTask store uid tid req today freshId
      = Except.ok (store.map fun s =>
          if s.id = tid ∧ s.user_id = uid then applyUpdates upd s else s) := by
  unfold putTask
  rw [hupd]
  simp only [hc, hfind, eq_self_iff_true, true_and, if_true]
  rw [if_neg hnt]

/-- C1, counterexample: the handler keys the recurrence trigger on
`updates.completed === true` alone and never consults the task's previous
`completed` value, so re-sending `completed = true` for an
already-completed recurring task inserts a further successor even though
the update does not set `completed` from false to true. -/
theorem C1_counterexample :
    wRecurringDone.completed = true ∧
    (putTask [wRecurringDone] 1 1 { completed := some true } ⟨2024, 3, 5⟩ 2).toOption.map
        List.length = some 2 :=
  ⟨rfl, by decide⟩

/-- C1 (amended): for a well-formed update of an existing task, a successor
row is inserted exactly when the request sets `completed = true` (regardless
of the task's previous `completed` value) and the pre-update row has
`is_recurring = true` and a non-null, non-empty `recurrence_pattern`; in
particular completing a non-recurring task and un-completing any task never
insert a row. -/
theorem C1_trigger_iff (store : List Task) (uid tid freshId : Nat)
    (req : UpdateReq) (today : ADate) (upd : Updates) (t : Task)
    (hupd : buildUpdates req = Except.ok upd)
    (hfind : findTask store tid uid = some t) :
    ((putTask store uid tid req today freshId).toOption.map List.length
        = some (store.length + 1))
      ↔ (upd.completed = some true ∧ t.is_recurring = true ∧
          truthyPat t.recurrence_pattern = true) := by
  constructor
  · intro h
    by_cases hc : upd.completed = some true
    · by_cases hnt : t.is_recurring = true ∧ truthyPat t.recurrence_pattern = true
      · exact ⟨hc, hnt.1, hnt.2⟩
      · rw [putTask_no_trigger store uid tid freshId req today upd t hupd hc hfind hnt] at h
        have h2 : store.length = store.length + 1 := by
          simpa [Except.toOption] using h
        exact absurd h2 (by omega)
    · rw [putTask_not_completing store uid tid freshId req today upd t hupd hc hfind] at h
      have h2 : store.length = store.length + 1 := by
        simpa [Except.toOption] using h
      exact absurd h2 (by omega)
  · rintro ⟨hc, hrec, hpat⟩
    rw [putTask_insert store uid tid freshId req today upd t hupd hc hfind hrec hpat]
    simp [Except.toOption, List.length_append, List.length_map]

/-- C1, witness: completing the pending recurring fixture task does insert
exactly one successor. -/
theorem C1_witness :
    buildUpdates wCompleteReq = Except.ok wCompleteUpd ∧
    findTask [wRecurring] 1 1 = some wRecurring ∧
    (((putTask [wRecurring] 1 1 wCompleteReq ⟨2024, 3, 5⟩ 2).toOption.map
        List.length) = some 2
      ↔ (wCompleteUpd.completed = some true ∧
         wRecurring.is_recurring = true ∧
         truthyPat wRecurring.recurrence_pattern = true)) :=
  ⟨rfl, rfl,
    C1_trigger_iff [wRecurring] 1 1 2 wCompleteReq ⟨2024, 3, 5⟩
      wCompleteUpd wRecurring rfl rfl⟩

/-- C4: when completing a recurring task fires the recurrence engine,
exactly one successor row is appended; it carries the source row's `text`,
`is_recurring` and `recurrence_pattern`, has `completed = false`, a
`due_date` equal to the computed next date, and `parent_task_id` equal to
the id of the task that was just completed. -/
theorem C4_successor (store : List Task) (uid tid freshId : Nat)
    (req : UpdateReq) (today : ADate) (upd : Updates) (t : Task)
    (hupd : buildUpdates req = Except.ok upd)
    (hc : upd.completed = some true)
    (hfind : findTask store tid uid = some t)
    (hrec : t.is_recurring = true)
    (hpat : truthyPat t.recurrence_pattern = true) :
    putTask store uid tid req today freshId
      = Except.ok ((store.map fun s =>
          if s.id = tid ∧ s.user_id = uid then applyUpdates upd s else s)
        ++ [{ id := freshId, user_id := uid, text := t.text, completed := false,
              due_date := some (calculateNextDueDate t.due_date today
                (t.recurrence_pattern.getD "")),
              is_recurring := true,
              recurrence_pattern := t.recurrence_pattern,
              parent_task_id := some tid }]) :=
  putTask_insert store uid tid freshId req today upd t hupd hc hfind hrec hpat

/-- C4, witness: completing the pending recurring fixture task appends the
expected successor. -/
theorem C4_witness :
    putTask [wRecurring] 1 1 wCompleteReq ⟨2024, 3, 5⟩ 2
      = Except.ok (([wRecurring].map fun s =>
          if s.id = 1 ∧ s.user_id = 1
          then applyUpdates wCompleteUpd s else s)
        ++ [{ id := 2, user_id := 1, text := wRecurring.text, completed := false,
              due_date := some (calculateNextDueDate wRecurring.due_date ⟨2024, 3, 5⟩
                (wRecurring.recurrence_pattern.getD "")),
              is_recurring := true,
              recurrence_pattern := wRecurring.recurrence_pattern,
              parent_task_id := some 1 }]) :=
  C4_successor [wRecurring] 1 1 2 wCompleteReq ⟨2024, 3, 5⟩
    wCompleteUpd wRecurring rfl rfl rfl rfl rfl

/-- C10: when one request both completes a recurring task and rewrites its
`text` and `recurrence_pattern`, the inserted successor is built from the
row as it was before the update (old text, old pattern, next date computed
from the old due date and old pattern), while the stored row itself receives
the new values. -/
theorem C10_pre_update_snapshot (store : List Task) (uid tid freshId : Nat)
    (req : UpdateReq) (today : ADate) (upd : Updates) (t : Task)
    (s' p' : String)
    (hupd : buildUpdates req = Except.ok upd)
    (hc : upd.completed = some true)
    (htext : upd.text = some s')
    (hpat' : upd.recurrence_pattern = some (some p'))
    (hfind : findTask store tid uid = some t)
    (hrec : t.is_recurring = true)
    (hpat : truthyPat t.recurrence_pattern = true) :
    (putTask store uid tid req today freshId
      = Except.ok ((store.map fun s =>
          if s.id = tid ∧ s.user_id = uid then applyUpdates upd s else s)
        ++ [{ id := freshId, user_id := uid, text := t.text, completed := false,
              due_date := some (calculateNextDueDate t.due_date today
                (t.recurrence_pattern.getD "")),
              is_recurring := true,
              recurrence_pattern := t.recurrence_pattern,
              parent_task_id := some tid }]))
    ∧ applyUpdates upd t
      = { t with
          text := s',
          completed := true,
          due_date := upd.due_date.getD t.due_date,
          is_recurring := upd.is_recurring.getD t.is_recurring,
          recurrence_pattern := some p' } := by
  refine ⟨putTask_insert store uid tid freshId req today upd t hupd hc hfind hrec hpat, ?_⟩
  simp [applyUpdates, htext, hc, hpat']

/-- C10, witness: one request completes the fixture task and renames it to
"new name" with a "weekly" pattern; the successor still carries the old
text, old daily pattern, and the old-due-date-based next date. -/
theorem C10_witness :
    (putTask [wRecurring] 1 1 wEditReq ⟨2024, 3, 5⟩ 2
      = Except.ok (([wRecurring].map fun s =>
          if s.id = 1 ∧ s.user_id = 1
          then applyUpdates wEditUpd s
          else s)
        ++ [{ id := 2, user_id := 1, text := wRecurring.text, completed := false,
              due_date := some (calculateNextDueDate wRecurring.due_date ⟨2024, 3, 5⟩
                (wRecurring.recurrence_pattern.getD "")),
              is_recurring := true,
              recurrence_pattern := wRecurring.recurrence_pattern,
              parent_task_id := some 1 }]))
    ∧ applyUpdates wEditUpd wRecurring
      = { wRecurring with
          text := "new name",
          completed := true,
          due_date := wEditUpd.due_date.getD wRecurring.due_date,
          is_recurring := wEditUpd.is_recurring.getD wRecurring.is_recurring,
          recurrence_pattern := some "weekly" } :=
  C10_pre_update_snapshot [wRecurring] 1 1 2 wEditReq ⟨2024, 3, 5⟩
    wEditUpd wRecurring "new name" "weekly"
    rfl rfl rfl rfl rfl rfl rfl

/-! ## Clause-level lemmas about the update validation -/

theorem updCompleted_text (req : UpdateReq) (u : Updates) :
    (updCompleted req u).text = u.text := by
  unfold updCompleted
  cases req.completed <;> rfl

theorem updDue_text (req : UpdateReq) (u : Updates) :
    (updDue req u).text = u.text := by
  unfold updDue
  cases req.due_date <;> rfl

theorem updRecurring_text (req : UpdateReq) (u : Updates) :
    (updRecurring req u).text = u.text := by
  unfold updRecurring
  cases req.is_recurring with
  | none => rfl
  | some b => cases b <;> rfl

theorem updPattern_ok_text (req : UpdateReq) (u u' : Updates)
    (h : updPattern req u = Except.ok u') : u'.text = u.text := by
  unfold updPattern at h
  cases hrp : req.recurrence_pattern with
  | none =>
    rw [hrp] at h
    injection h with hh
    rw [← hh]
  | some rp =>
    rw [hrp] at h
    simp only [] at h
    split_ifs at h
    injection h with hh
    rw [← hh]

theorem afterText_ok_text (req : UpdateReq) (u upd : Updates)
    (h : afterText req u = Except.ok upd) : upd.text = u.text := by
  unfold afterText at h
  cases hp : updPattern req (updRecurring req (updDue req (updCompleted req u))) with
  | error e => rw [hp] at h; exact Except.noConfusion h
  | ok u' =>
    rw [hp] at h
    simp only [] at h
    split_ifs at h
    injection h with hh
    rw [← hh, updPattern_ok_text req _ u' hp, updRecurring_text, updDue_text,
      updCompleted_text]

theorem buildUpdates_ok_text (req : UpdateReq) (upd : Updates) (s : String)
    (htext : req.text = some s) (h : buildUpdates req = Except.ok upd) :
    upd.text = some (jsTrim s) := by
  unfold buildUpdates at h
  rw [htext] at h
  simp only [] at h
  split_ifs at h
  exact afterText_ok_text req _ upd h

theorem updPattern_invalid (req : UpdateReq) (rp : Option String)
    (hrp : req.recurrence_pattern = some rp) (ht : truthyPat rp = true)
    (hinv : rp.getD "" ∉ validPatterns) (u : Updates) :
    updPattern req u = Except.error "Invalid recurrence pattern" := by
  unfold updPattern
  rw [hrp]
  simp only []
  rw [if_pos ⟨ht, hinv⟩]

theorem afterText_invalid (req : UpdateReq) (rp : Option String)
    (hrp : req.recurrence_pattern = some rp) (ht : truthyPat rp = true)
    (hinv : rp.getD "" ∉ validPatterns) (u : Updates) :
    afterText req u = Except.error "Invalid recurrence pattern" := by
  unfold afterText
  rw [updPattern_invalid req rp hrp ht hinv]

theorem buildUpdates_pattern_invalid (req : UpdateReq) (rp : Option String)
    (hrp : req.recurrence_pattern = some rp) (ht : truthyPat rp = true)
    (hinv : rp.getD "" ∉ validPatterns) :
    ∃ e, buildUpdates req = Except.error e := by
  unfold buildUpdates
  cases htext : req.text with
  | none => exact ⟨_, afterText_invalid req rp hrp ht hinv _⟩
  | some s =>
    simp only []
    split_ifs
    · exact ⟨_, rfl⟩
    · exact ⟨_, rfl⟩
    · exact ⟨_, afterText_invalid req rp hrp ht hinv _⟩

theorem putTask_of_buildUpdates_error (store : List Task) (uid tid freshId : Nat)
    (req : UpdateReq) (today : ADate) (e : String)
    (h : buildUpdates req = Except.error e) :
    putTask store uid tid req today freshId = Except.error e := by
  unfold putTask
  rw [h]

/-- C2, counterexample: the create handler persists `is_recurring = true`
with a null `recurrence_pattern` when the pattern field is simply absent,
and the update handler persists a non-null pattern on a task whose
`is_recurring` stays false — both sides of the spec invariant are violated
by reachable store states. -/
theorem C2_counterexample :
    ((createTask [] 1 { text := some "repeat task", is_recurring := true } 5).toOption.map
        fun pr => (pr.2.is_recurring, pr.2.recurrence_pattern)) = some (true, none)
    ∧ ((putTask [wPlain] 1 1 { recurrence_pattern := some (some "daily") }
          ⟨2024, 3, 5⟩ 2).toOption.map
        fun l => l.map fun s => (s.is_recurring, s.recurrence_pattern))
      = some [(false, some "daily")] :=
  ⟨rfl, by decide⟩

/-- C2 (amended): the create handler does guarantee half of the invariant —
every row it persists satisfies `is_recurring = false → recurrence_pattern =
null` — but neither handler prevents `is_recurring = true` with a null
pattern, and the update handler can persist a pattern on a non-recurring
row. -/
theorem C2_create_invariant (store : List Task) (uid freshId : Nat)
    (req : CreateReq) (l : List Task) (t : Task)
    (h : createTask store uid req freshId = Except.ok (l, t))
    (hnr : t.is_recurring = false) :
    t.recurrence_pattern = none := by
  unfold createTask at h
  cases htext : req.text with
  | none => rw [htext] at h; exact Except.noConfusion h
  | some s =>
    rw [htext] at h
    simp only [] at h
    split_ifs at h with h1 h2 h3 h4
    · injection h with hh
      injection hh with hl ht
      subst ht
      simp only [] at hnr
      rw [h4] at hnr
      exact Bool.noConfusion hnr
    · injection h with hh
      injection hh with hl ht
      subst ht
      rfl

/-- C2, witness: a plain create yields a row with `is_recurring = false` and
a null pattern. -/
theorem C2_witness :
    wMilkCreated.is_recurring = false ∧ wMilkCreated.recurrence_pattern = none :=
  ⟨rfl, C2_create_invariant [] 1 3 { text := some "buy milk" } [wMilkCreated]
    wMilkCreated rfl rfl⟩

/-- C6, counterexample: a create request carrying an unrecognized
`recurrence_pattern` is accepted (201, row inserted) whenever
`is_recurring` is falsy — the pattern validation is guarded by
`is_recurring && recurrence_pattern`, so the operation is not rejected. -/
theorem C6_counterexample :
    bogusCreateReq.recurrence_pattern = some "bogus"
    ∧ "bogus" ∉ validPatterns
    ∧ (createTask [] 1 bogusCreateReq 1).toOption.isSome = true :=
  ⟨rfl, by decide, rfl⟩

/-- C6 (amended): an unrecognized pattern is rejected before any store
mutation on create only when the request's `is_recurring` is truthy and the
pattern value itself is truthy, and on update whenever the submitted
pattern value is truthy; in those cases the handlers return a validation
error and the store is untouched. -/
theorem C6_pattern_rejection :
    (∀ (store : List Task) (uid freshId : Nat) (req : CreateReq) (p : String),
      req.is_recurring = true → req.recurrence_pattern = some p →
      truthyPat (some p) = true → p ∉ validPatterns →
      ∃ e, createTask store uid req freshId = Except.error e)
    ∧ (∀ (store : List Task) (uid tid freshId : Nat) (req : UpdateReq)
        (rp : Option String) (today : ADate),
      req.recurrence_pattern = some rp → truthyPat rp = true →
      rp.getD "" ∉ validPatterns →
      ∃ e, buildUpdates req = Except.error e
        ∧ putTask store uid tid req today freshId = Except.error e) := by
  constructor
  · intro store uid freshId req p hrec hrp ht hp
    unfold createTask
    cases htext : req.text with
    | none => exact ⟨_, rfl⟩
    | some s =>
      simp only []
      split_ifs with h1 h2 h3 h4 <;>
        try exact ⟨_, rfl⟩
      all_goals
        exact absurd ⟨hrec, by rw [hrp]; exact ht, by rw [hrp]; exact hp⟩ h3
  · intro store uid tid freshId req rp today hrp ht hinv
    obtain ⟨e, he⟩ := buildUpdates_pattern_invalid req rp hrp ht hinv
    exact ⟨e, he, putTask_of_buildUpdates_error store uid tid freshId req today e he⟩

/-- C6, witness: a recurring create with pattern `"bogus"` is rejected. -/
theorem C6_witness :
    bogusRecReq.is_recurring = true ∧ bogusRecReq.recurrence_pattern = some "bogus" ∧
    (∃ e, createTask [] 1 bogusRecReq 1 = Except.error e) :=
  ⟨rfl, rfl,
    C6_pattern_rejection.1 [] 1 1 bogusRecReq "bogus" rfl rfl (by decide) (by decide)⟩

/-- C9, counterexample: the 200-character limit is applied to the raw text
before trimming, so a text of raw length 201 whose trimmed length is 195 is
rejected, although the claim says any text of at most 200 characters after
trimming is accepted. -/
theorem C9_counterexample :
    longText.length = 201 ∧ (jsTrim longText).length = 195 ∧
    createTask [] 1 { text := some longText } 7
      = Except.error "Task text must be 200 characters or less" :=
  ⟨by decide, by decide, rfl⟩

/-- C9 (amended): creation and update reject text that is empty after
trimming, and reject text whose raw (pre-trim) length exceeds 200; text
that is non-empty after trimming and has raw length at most 200 passes the
text validation, and the trimmed text is what is stored. -/
theorem C9_text_validation :
    (∀ (store : List Task) (uid freshId : Nat) (req : CreateReq) (s : String),
      req.text = some s → (jsTrim s).length = 0 →
      createTask store uid req freshId = Except.error "Task text is required")
    ∧ (∀ (store : List Task) (uid freshId : Nat) (req : CreateReq) (s : String),
      req.text = some s → (jsTrim s).length ≠ 0 → s.length > 200 →
      createTask store uid req freshId
        = Except.error "Task text must be 200 characters or less")
    ∧ (∀ (store : List Task) (uid freshId : Nat) (req : CreateReq) (s : String),
      req.text = some s → (jsTrim s).length ≠ 0 → s.length ≤ 200 →
      ¬ (req.is_recurring = true ∧ truthyPat req.recurrence_pattern = true ∧
          req.recurrence_pattern.getD "" ∉ validPatterns) →
      ∃ l t, createTask store uid req freshId = Except.ok (l, t) ∧ t.text = jsTrim s)
    ∧ (∀ (req : UpdateReq) (s : String),
      req.text = some s → (jsTrim s).length = 0 →
      buildUpdates req = Except.error "Task text cannot be empty")
    ∧ (∀ (req : UpdateReq) (s : String),
      req.text = some s → (jsTrim s).length ≠ 0 → s.length > 200 →
      buildUpdates req = Except.error "Task text must be 200 characters or less")
    ∧ (∀ (req : UpdateReq) (upd : Updates) (s : String),
      req.text = some s → buildUpdates req = Except.ok upd →
      upd.text = some (jsTrim s)) := by
  refine ⟨?_, ?_, ?_, ?_, ?_, ?_⟩
  · intro store uid freshId req s htext h0
    unfold createTask
    rw [htext]
    simp only []
    rw [if_pos h0]
  · intro store uid freshId req s htext h0 hlen
    unfold createTask
    rw [htext]
    simp only []
    rw [if_neg h0, if_pos hlen]
  · intro store uid freshId req s htext h0 hlen hvr
    unfold createTask
    rw [htext]
    simp only []
    rw [if_neg h0, if_neg (by omega : ¬ s.length > 200), if_neg hvr]
    exact ⟨_, _, rfl, rfl⟩
  · intro req s htext h0
    unfold buildUpdates
    rw [htext]
    simp only []
    rw [if_pos h0]
  · intro req s htext h0 hlen
    unfold buildUpdates
    rw [htext]
    simp only []
    rw [if_neg h0, if_pos hlen]
  · intro req upd s htext h
    exact buildUpdates_ok_text req upd s htext h

/-- C9, witness: `"  buy milk  "` (raw length 12, trimmed non-empty) passes
the text validation and is stored trimmed. -/
theorem C9_witness :
    (jsTrim "  buy milk  ").length ≠ 0 ∧ "  buy milk  ".length ≤ 200 ∧
    (∃ l t, createTask [] 1 { text := some "  buy milk  " } 3 = Except.ok (l, t) ∧
      t.text = jsTrim "  buy milk  ") :=
  ⟨by decide, by decide,
    C9_text_validation.2.2.1 [] 1 3 { text := some "  buy milk  " } "  buy milk  "
      rfl (by decide) (by decide) (by decide)⟩

end Clarity
